import Mathlib

/-!
Shallow embedding of the `Timer` class of `src/pyvesync/devhelpers.py`
(the lazily evaluated countdown state machine of the pyvesync library).

Modelling conventions:
* Python ints are `Int`; the optional checkpoint `update_time` is `Option Int`.
* The wall clock is passed explicitly: every operation that calls
  `int(time.time())` in Python takes a `now : Int` argument, and all clock
  reads inside one Python call see the same `now` (a call is instantaneous).
* Property reads that mutate the object (`time_remaining`, `running`, `done`
  call `_internal_update`) return the value paired with the new state.
* The status setter's `raise ValueError` is modelled by returning the
  unchanged state paired with `some errorMessage`; the raise is the first
  statement of the setter, before any mutation.
* attrs field defaults that are plain expressions (here
  `update_time : Optional[int] = int(time.time())`) are evaluated once, when
  the class body runs at module import; the constructor model therefore takes
  the module-load timestamp, not a per-instance creation time.
-/

namespace PyVeSync

/-- State of a `Timer` object: the attrs fields `timer_duration`, `action`,
`id`, `remaining`, `_status` (here `status`), `_remain` (here `remain`) and
`update_time`, in source order. -/
structure Timer where
  timer_duration : Int
  action : String
  id : Int
  remaining : Option Int
  status : String
  remain : Int
  update_time : Option Int
  deriving Repr, DecidableEq

/-- Constructor: `Timer(timer_duration, action, id, remaining)` followed by
`__attrs_post_init__`, which copies `remaining` (or, when it is `None`, the
duration) into `_remain`.  `_status` defaults to `'active'`.  The
`update_time` default `int(time.time())` is evaluated once when the class
body runs, so every instance built with the default gets the module-load
timestamp `classLoadTime`, not its own creation time. -/
def mkTimer (timer_duration : Int) (action : String) (id : Int)
    (remaining : Option Int) (classLoadTime : Int) : Timer :=
  { timer_duration := timer_duration
    action := action
    id := id
    remaining := remaining
    status := "active"
    remain := remaining.getD timer_duration
    update_time := some classLoadTime }

/-- `Timer._seconds_since_check`: `0` when `update_time is None`, else
`int(time.time()) - update_time`. -/
def secondsSinceCheck (t : Timer) (now : Int) : Int :=
  match t.update_time with
  | none => 0
  | some u => now - u

/-- `Timer._internal_update`.  Source order: a paused timer only clears its
checkpoint; a done timer, or an active one whose elapsed seconds strictly
exceed `_remain`, becomes done with `_remain = 0` and no checkpoint; a timer
still active after that subtracts the elapsed seconds and re-checkpoints. -/
def internalUpdate (t : Timer) (now : Int) : Timer :=
  if t.status = "paused" then { t with update_time := none }
  else
    let t1 :=
      if t.status = "done" ∨
          (secondsSinceCheck t now > t.remain ∧ t.status = "active") then
        { t with status := "done", update_time := none, remain := 0 }
      else t
    if t1.status = "active" then
      { t1 with remain := t1.remain - secondsSinceCheck t1 now
                update_time := some now }
    else t1

/-- `Timer.end`: unconditionally `_status = 'done'`, `_remain = 0`,
`update_time = None`. -/
def timerEnd (t : Timer) : Timer :=
  { t with status := "done", remain := 0, update_time := none }

/-- The allowed strings of the status setter: `['active', 'paused', 'done']`. -/
def validStatus (s : String) : Prop :=
  s = "active" ∨ s = "paused" ∨ s = "done"

instance (s : String) : Decidable (validStatus s) := by
  unfold validStatus; infer_instance

/-- Body of the status setter after validation: `_internal_update`, then the
absorbing-done check (`status == 'done' or self._status == 'done'` ends the
timer), then the paused→active and active→paused checkpoint adjustments,
then `_status = status`. -/
def setStatusCore (t : Timer) (s : String) (now : Int) : Timer :=
  let t1 := internalUpdate t now
  if s = "done" ∨ t1.status = "done" then timerEnd t1
  else
    let t2 :=
      if t1.status = "paused" ∧ s = "active" then
        { t1 with update_time := some now }
      else t1
    let t3 :=
      if t2.status = "active" ∧ s = "paused" then
        { t2 with update_time := none }
      else t2
    { t3 with status := s }

/-- The status setter.  `raise ValueError(f'Invalid status {status}')` is the
first statement, before any mutation, and is modelled as the unchanged state
paired with `some message`. -/
def setStatus (t : Timer) (s : String) (now : Int) : Timer × Option String :=
  if validStatus s then (setStatusCore t s now, none)
  else (t, some ("Invalid status " ++ s))

/-- The `status` property read: returns `_status` without recompute. -/
def statusRead (t : Timer) : String :=
  t.status

/-- The `time_remaining` property read: `_internal_update`, then `_remain`;
returns the value paired with the mutated state. -/
def timeRemainingRead (t : Timer) (now : Int) : Int × Timer :=
  let t1 := internalUpdate t now
  (t1.remain, t1)

/-- The `time_remaining` setter: nonpositive values end the timer; otherwise
`_remain = remaining`, a done timer gets `self.status = 'paused'` (through
the full status setter), `update_time = None`, and `_internal_update`. -/
def setTimeRemaining (t : Timer) (remaining : Int) (now : Int) : Timer :=
  if remaining ≤ 0 then timerEnd t
  else
    let t1 := { t with remain := remaining }
    let t2 := if t1.status = "done" then setStatusCore t1 "paused" now else t1
    let t3 := { t2 with update_time := none }
    internalUpdate t3 now

/-- The `running` property read: `self.time_remaining > 0 and
self.status == 'active'`, evaluated on the state mutated by the
`time_remaining` read. -/
def runningRead (t : Timer) (now : Int) : Bool × Timer :=
  let t1 := internalUpdate t now
  (decide (t1.remain > 0) && decide (t1.status = "active"), t1)

/-- The `paused` property read: `self.status == 'paused'`, no recompute. -/
def pausedRead (t : Timer) : Bool :=
  decide (t.status = "paused")

/-- The `done` property read: `self.time_remaining <= 0 or
self._status == 'done'`, evaluated on the state mutated by the
`time_remaining` read. -/
def doneRead (t : Timer) (now : Int) : Bool × Timer :=
  let t1 := internalUpdate t now
  (decide (t1.remain ≤ 0) || decide (t1.status = "done"), t1)

/-- `Timer.start`: a no-op unless `_status == 'paused'`; otherwise set
`update_time = now` and assign `'active'` through the status setter. -/
def timerStart (t : Timer) (now : Int) : Timer :=
  if t.status ≠ "paused" then t
  else setStatusCore { t with update_time := some now } "active" now

/-- `Timer.pause`: `_internal_update`, a no-op when done, otherwise assign
`'paused'` through the status setter and clear `update_time`. -/
def timerPause (t : Timer) (now : Int) : Timer :=
  let t1 := internalUpdate t now
  if t1.status = "done" then t1
  else
    let t2 := setStatusCore t1 "paused" now
    { t2 with update_time := none }

/-- `Timer.update(time_remaining=..., status=...)`: applies the
`time_remaining` setter when supplied, then the status setter when supplied;
the pair's second component is the error raised by an invalid status. -/
def timerUpdate (t : Timer) (time_remaining : Option Int)
    (status : Option String) (now : Int) : Timer × Option String :=
  let t1 :=
    match time_remaining with
    | some v => setTimeRemaining t v now
    | none => t
  match status with
  | some s => setStatus t1 s now
  | none => (t1, none)

/-- The direction of the spec invariant that the code maintains: a done timer
has `_remain = 0` and no checkpoint. -/
def TimerInv (t : Timer) : Prop :=
  t.status = "done" → t.remain = 0 ∧ t.update_time = none

instance (t : Timer) : Decidable (TimerInv t) := by
  unfold TimerInv; infer_instance

/-- Frame relation for C10: the constructor-fixed fields `timer_duration`,
`action` and `id` of `t'` agree with those of `t`. -/
def sameFrame (t t' : Timer) : Prop :=
  t'.timer_duration = t.timer_duration ∧ t'.action = t.action ∧ t'.id = t.id

/-- Replace only the `timer_duration` field; an operation that never reads
the duration commutes with this substitution. -/
def withDuration (t : Timer) (x : Int) : Timer :=
  { t with timer_duration := x }

/-! ### Stepping lemmas for `_internal_update` and the compound operations -/

theorem secondsSinceCheck_none (t : Timer) (now : Int) (h : t.update_time = none) :
    secondsSinceCheck t now = 0 := by
  simp [secondsSinceCheck, h]

theorem secondsSinceCheck_some (t : Timer) (now c : Int) (h : t.update_time = some c) :
    secondsSinceCheck t now = now - c := by
  simp [secondsSinceCheck, h]

theorem internalUpdate_paused (t : Timer) (now : Int) (h : t.status = "paused") :
    internalUpdate t now = { t with update_time := none } := by
  simp [internalUpdate, h]

theorem internalUpdate_done (t : Timer) (now : Int) (h : t.status = "done") :
    internalUpdate t now = timerEnd t := by
  simp [internalUpdate, timerEnd, h]

theorem internalUpdate_active_live (t : Timer) (now : Int) (h : t.status = "active")
    (h2 : secondsSinceCheck t now ≤ t.remain) :
    internalUpdate t now =
      { t with remain := t.remain - secondsSinceCheck t now, update_time := some now } := by
  simp [internalUpdate, h, not_lt.mpr h2]

theorem internalUpdate_active_expired (t : Timer) (now : Int) (h : t.status = "active")
    (h2 : t.remain < secondsSinceCheck t now) :
    internalUpdate t now = timerEnd t := by
  simp [internalUpdate, timerEnd, h, h2]

theorem internalUpdate_other (t : Timer) (now : Int) (h1 : t.status ≠ "paused")
    (h2 : t.status ≠ "done") (h3 : t.status ≠ "active") :
    internalUpdate t now = t := by
  simp [internalUpdate, h1, h2, h3]

theorem timerEnd_timerEnd (t : Timer) : timerEnd (timerEnd t) = timerEnd t := rfl

@[simp]
theorem timerEnd_status (t : Timer) : (timerEnd t).status = "done" := rfl

@[simp]
theorem timerEnd_remain (t : Timer) : (timerEnd t).remain = 0 := rfl

@[simp]
theorem timerEnd_update_time (t : Timer) : (timerEnd t).update_time = none := rfl

@[simp]
theorem timerEnd_timer_duration (t : Timer) :
    (timerEnd t).timer_duration = t.timer_duration := rfl

@[simp]
theorem timerEnd_action (t : Timer) : (timerEnd t).action = t.action := rfl

@[simp]
theorem timerEnd_id (t : Timer) : (timerEnd t).id = t.id := rfl

@[simp]
theorem timerEnd_remaining (t : Timer) : (timerEnd t).remaining = t.remaining := rfl

theorem internalUpdate_timerEnd (t : Timer) (now : Int) :
    internalUpdate (timerEnd t) now = timerEnd t := by
  rw [internalUpdate_done (timerEnd t) now rfl, timerEnd_timerEnd]

theorem setStatusCore_of_done (t : Timer) (s : String) (now : Int) (h : t.status = "done") :
    setStatusCore t s now = timerEnd t := by
  obtain ⟨a, b, c, d, st, r, u⟩ := t
  simp only at h
  subst h
  simp [setStatusCore, internalUpdate, timerEnd, secondsSinceCheck]

theorem setTimeRemaining_of_done (t : Timer) (v now : Int) (h : t.status = "done") :
    setTimeRemaining t v now = timerEnd t := by
  obtain ⟨a, b, c, d, st, r, u⟩ := t
  simp only at h
  subst h
  by_cases hv : v ≤ 0
  · simp [setTimeRemaining, timerEnd, hv]
  · simp [setTimeRemaining, setStatusCore, internalUpdate, timerEnd, secondsSinceCheck, hv]

theorem timerStart_of_not_paused (t : Timer) (now : Int) (h : t.status ≠ "paused") :
    timerStart t now = t := by
  simp [timerStart, h]

theorem timerStart_of_paused (t : Timer) (now : Int) (h : t.status = "paused") :
    timerStart t now = { t with status := "active", update_time := some now } := by
  obtain ⟨a, b, c, d, st, r, u⟩ := t
  simp only at h
  subst h
  simp [timerStart, setStatusCore, internalUpdate, timerEnd, secondsSinceCheck]

theorem timerPause_of_done (t : Timer) (now : Int) (h : t.status = "done") :
    timerPause t now = timerEnd t := by
  obtain ⟨a, b, c, d, st, r, u⟩ := t
  simp only at h
  subst h
  simp [timerPause, internalUpdate, timerEnd, secondsSinceCheck]

theorem timerPause_of_paused (t : Timer) (now : Int) (h : t.status = "paused") :
    timerPause t now = { t with update_time := none } := by
  obtain ⟨a, b, c, d, st, r, u⟩ := t
  simp only at h
  subst h
  simp [timerPause, setStatusCore, internalUpdate, timerEnd, secondsSinceCheck]

theorem timerPause_of_active_live (t : Timer) (now : Int) (h : t.status = "active")
    (h2 : secondsSinceCheck t now ≤ t.remain) :
    timerPause t now =
      { t with status := "paused", remain := t.remain - secondsSinceCheck t now,
               update_time := none } := by
  obtain ⟨a, b, c, d, st, r, u⟩ := t
  simp only at h
  subst h
  cases u with
  | none =>
    simp only [secondsSinceCheck] at h2 ⊢
    simp [timerPause, setStatusCore, internalUpdate, timerEnd, secondsSinceCheck,
      not_lt.mpr h2]
  | some cp =>
    simp only [secondsSinceCheck] at h2 ⊢
    have h3 : ¬ (r - (now - cp) < 0) := by omega
    simp [timerPause, setStatusCore, internalUpdate, timerEnd, secondsSinceCheck,
      not_lt.mpr h2, h3]

theorem timerPause_of_active_expired (t : Timer) (now : Int) (h : t.status = "active")
    (h2 : t.remain < secondsSinceCheck t now) :
    timerPause t now = timerEnd t := by
  obtain ⟨a, b, c, d, st, r, u⟩ := t
  simp only at h
  subst h
  cases u with
  | none =>
    simp only [secondsSinceCheck] at h2
    simp [timerPause, setStatusCore, internalUpdate, timerEnd, secondsSinceCheck, h2]
  | some cp =>
    simp only [secondsSinceCheck] at h2
    simp [timerPause, setStatusCore, internalUpdate, timerEnd, secondsSinceCheck, h2]

theorem timerPause_of_other (t : Timer) (now : Int) (h1 : t.status ≠ "paused")
    (h2 : t.status ≠ "done") (h3 : t.status ≠ "active") :
    timerPause t now = { t with status := "paused", update_time := none } := by
  obtain ⟨a, b, c, d, st, r, u⟩ := t
  simp only at h1 h2 h3
  simp [timerPause, setStatusCore, internalUpdate, timerEnd, secondsSinceCheck,
    h1, h2, h3]

theorem timeRemainingRead_eq (t : Timer) (now : Int) :
    timeRemainingRead t now = ((internalUpdate t now).remain, internalUpdate t now) := rfl

/-! ### The one-directional done invariant -/

theorem timerInv_internalUpdate (t : Timer) (now : Int) :
    TimerInv (internalUpdate t now) := by
  obtain ⟨a, b, c, d, st, r, u⟩ := t
  by_cases h1 : st = "paused" <;> by_cases h2 : st = "done" <;> by_cases h3 : st = "active" <;>
    simp_all [TimerInv, internalUpdate] <;> split_ifs <;> simp_all

theorem timerInv_timerEnd (t : Timer) : TimerInv (timerEnd t) := by
  simp [TimerInv, timerEnd]

theorem timerInv_setStatusCore (t : Timer) (s : String) (now : Int) :
    TimerInv (setStatusCore t s now) := by
  unfold setStatusCore
  by_cases hc : s = "done" ∨ (internalUpdate t now).status = "done"
  · simp only [if_pos hc]
    exact timerInv_timerEnd _
  · simp only [if_neg hc]
    intro hdone
    simp only at hdone
    exact absurd (Or.inl hdone) hc

theorem timerInv_setStatus_fst (t : Timer) (s : String) (now : Int) (ht : TimerInv t) :
    TimerInv (setStatus t s now).1 := by
  unfold setStatus
  split_ifs
  · exact timerInv_setStatusCore t s now
  · exact ht

theorem timerInv_setTimeRemaining (t : Timer) (v now : Int) :
    TimerInv (setTimeRemaining t v now) := by
  unfold setTimeRemaining
  split_ifs
  · exact timerInv_timerEnd t
  · exact timerInv_internalUpdate _ now

theorem timerInv_timerStart (t : Timer) (now : Int) (ht : TimerInv t) :
    TimerInv (timerStart t now) := by
  unfold timerStart
  split_ifs
  · exact ht
  · exact timerInv_setStatusCore _ "active" now

theorem timerInv_timerPause (t : Timer) (now : Int) :
    TimerInv (timerPause t now) := by
  simp only [timerPause]
  split_ifs
  · exact timerInv_internalUpdate t now
  · intro hdone
    simp only at hdone
    exact ⟨(timerInv_setStatusCore (internalUpdate t now) "paused" now hdone).1, rfl⟩

theorem timerInv_timerUpdate_fst (t : Timer) (r : Option Int) (s : Option String)
    (now : Int) (ht : TimerInv t) : TimerInv (timerUpdate t r s now).1 := by
  unfold timerUpdate
  cases r with
  | none =>
    cases s with
    | none => exact ht
    | some s0 => exact timerInv_setStatus_fst t s0 now ht
  | some v =>
    cases s with
    | none => exact timerInv_setTimeRemaining t v now
    | some s0 => exact timerInv_setStatus_fst _ s0 now (timerInv_setTimeRemaining t v now)

/-! ### Frame lemmas: no operation touches `timer_duration`, `action`, `id`,
and none reads `timer_duration` -/

theorem sameFrame_internalUpdate (t : Timer) (now : Int) :
    sameFrame t (internalUpdate t now) := by
  obtain ⟨a, b, c, d, st, r, u⟩ := t
  dsimp only [sameFrame, internalUpdate, secondsSinceCheck]
  split_ifs <;> exact ⟨rfl, rfl, rfl⟩

theorem sameFrame_timerEnd (t : Timer) : sameFrame t (timerEnd t) :=
  ⟨rfl, rfl, rfl⟩

theorem sameFrame_setStatusCore (t : Timer) (s : String) (now : Int) :
    sameFrame t (setStatusCore t s now) := by
  obtain ⟨a, b, c, d, st, r, u⟩ := t
  dsimp only [sameFrame, setStatusCore, internalUpdate, secondsSinceCheck, timerEnd]
  split_ifs <;> exact ⟨rfl, rfl, rfl⟩

theorem sameFrame_setStatus_fst (t : Timer) (s : String) (now : Int) :
    sameFrame t (setStatus t s now).1 := by
  unfold setStatus
  split_ifs
  · exact sameFrame_setStatusCore t s now
  · exact ⟨rfl, rfl, rfl⟩

theorem sameFrame_setTimeRemaining (t : Timer) (v now : Int) :
    sameFrame t (setTimeRemaining t v now) := by
  simp only [setTimeRemaining]
  split_ifs
  · exact sameFrame_timerEnd t
  · have hA := sameFrame_setStatusCore ({ t with remain := v } : Timer) "paused" now
    have hB := sameFrame_internalUpdate
      ({ setStatusCore { t with remain := v } "paused" now with
          update_time := none } : Timer) now
    exact ⟨hB.1.trans hA.1, hB.2.1.trans hA.2.1, hB.2.2.trans hA.2.2⟩
  · exact sameFrame_internalUpdate
      ({ { t with remain := v } with update_time := none } : Timer) now

theorem sameFrame_timerStart (t : Timer) (now : Int) :
    sameFrame t (timerStart t now) := by
  obtain ⟨a, b, c, d, st, r, u⟩ := t
  dsimp only [sameFrame, timerStart, setStatusCore, internalUpdate,
    secondsSinceCheck, timerEnd]
  split_ifs <;> exact ⟨rfl, rfl, rfl⟩

theorem sameFrame_timerPause (t : Timer) (now : Int) :
    sameFrame t (timerPause t now) := by
  simp only [timerPause]
  split_ifs
  · exact sameFrame_internalUpdate t now
  · have hA := sameFrame_internalUpdate t now
    have hB := sameFrame_setStatusCore (internalUpdate t now) "paused" now
    exact ⟨hB.1.trans hA.1, hB.2.1.trans hA.2.1, hB.2.2.trans hA.2.2⟩

theorem sameFrame_timerUpdate_fst (t : Timer) (r0 : Option Int) (s0 : Option String)
    (now : Int) : sameFrame t (timerUpdate t r0 s0 now).1 := by
  unfold timerUpdate
  cases r0 with
  | none =>
    cases s0 with
    | none => exact ⟨rfl, rfl, rfl⟩
    | some s1 => exact sameFrame_setStatus_fst t s1 now
  | some v =>
    cases s0 with
    | none => exact sameFrame_setTimeRemaining t v now
    | some s1 =>
      have h1 := sameFrame_setTimeRemaining t v now
      have h2 := sameFrame_setStatus_fst (setTimeRemaining t v now) s1 now
      exact ⟨h2.1.trans h1.1, h2.2.1.trans h1.2.1, h2.2.2.trans h1.2.2⟩

theorem internalUpdate_withDuration (t : Timer) (x now : Int) :
    internalUpdate (withDuration t x) now = withDuration (internalUpdate t now) x := by
  obtain ⟨a, b, c, d, st, r, u⟩ := t
  dsimp only [withDuration, internalUpdate, secondsSinceCheck]
  split_ifs <;> rfl

theorem setStatusCore_withDuration (t : Timer) (x : Int) (s : String) (now : Int) :
    setStatusCore (withDuration t x) s now =
      withDuration (setStatusCore t s now) x := by
  obtain ⟨a, b, c, d, st, r, u⟩ := t
  dsimp only [withDuration, setStatusCore, internalUpdate, secondsSinceCheck, timerEnd]
  split_ifs <;> rfl

theorem setStatus_withDuration (t : Timer) (x : Int) (s : String) (now : Int) :
    setStatus (withDuration t x) s now =
      (withDuration (setStatus t s now).1 x, (setStatus t s now).2) := by
  unfold setStatus
  split_ifs
  · rw [setStatusCore_withDuration]
  · rfl

theorem setTimeRemaining_withDuration (t : Timer) (x v now : Int) :
    setTimeRemaining (withDuration t x) v now =
      withDuration (setTimeRemaining t v now) x := by
  by_cases hv : v ≤ 0
  · simp only [setTimeRemaining, if_pos hv]
    rfl
  · simp only [setTimeRemaining, if_neg hv]
    by_cases hd : t.status = "done"
    · rw [if_pos (show ({ (withDuration t x) with remain := v } : Timer).status = "done"
          from hd),
        if_pos (show ({ t with remain := v } : Timer).status = "done" from hd)]
      have e1 : setStatusCore { (withDuration t x) with remain := v } "paused" now =
          withDuration (setStatusCore { t with remain := v } "paused" now) x :=
        setStatusCore_withDuration { t with remain := v } x "paused" now
      rw [e1]
      have e2 : ({ withDuration (setStatusCore { t with remain := v } "paused" now) x
            with update_time := none } : Timer) =
          withDuration
            { setStatusCore { t with remain := v } "paused" now with
              update_time := none } x := rfl
      rw [e2, internalUpdate_withDuration]
    · rw [if_neg (show ¬ ({ (withDuration t x) with remain := v } : Timer).status = "done"
          from hd),
        if_neg (show ¬ ({ t with remain := v } : Timer).status = "done" from hd)]
      have e3 : ({ { (withDuration t x) with remain := v } with
            update_time := none } : Timer) =
          withDuration { { t with remain := v } with update_time := none } x := rfl
      rw [e3, internalUpdate_withDuration]

theorem timerStart_withDuration (t : Timer) (x now : Int) :
    timerStart (withDuration t x) now = withDuration (timerStart t now) x := by
  simp only [timerStart]
  by_cases hp : t.status ≠ "paused"
  · rw [if_pos (show (withDuration t x).status ≠ "paused" from hp), if_pos hp]
  · rw [if_neg (show ¬ (withDuration t x).status ≠ "paused" from hp), if_neg hp]
    have e1 : ({ (withDuration t x) with update_time := some now } : Timer) =
        withDuration { t with update_time := some now } x := rfl
    rw [e1, setStatusCore_withDuration]

theorem timerPause_withDuration (t : Timer) (x now : Int) :
    timerPause (withDuration t x) now = withDuration (timerPause t now) x := by
  simp only [timerPause]
  rw [internalUpdate_withDuration]
  by_cases hd : (internalUpdate t now).status = "done"
  · rw [if_pos (show (withDuration (internalUpdate t now) x).status = "done" from hd),
      if_pos hd]
  · rw [if_neg (show ¬ (withDuration (internalUpdate t now) x).status = "done" from hd),
      if_neg hd,
      setStatusCore_withDuration (internalUpdate t now) x "paused" now]
    rfl

theorem timerUpdate_withDuration (t : Timer) (x : Int) (r0 : Option Int)
    (s0 : Option String) (now : Int) :
    timerUpdate (withDuration t x) r0 s0 now =
      (withDuration (timerUpdate t r0 s0 now).1 x, (timerUpdate t r0 s0 now).2) := by
  unfold timerUpdate
  cases r0 with
  | none =>
    cases s0 with
    | none => rfl
    | some s1 => exact setStatus_withDuration t x s1 now
  | some v =>
    cases s0 with
    | none =>
      dsimp only
      rw [setTimeRemaining_withDuration]
    | some s1 =>
      dsimp only
      rw [setTimeRemaining_withDuration, setStatus_withDuration]

/-! ### Claim theorems -/

/-- C1 (amended): for an active timer whose elapsed wall-clock gap `now - c`
is at least its remaining time, a read observes `time_remaining == 0`,
`running == false` and `done == true`; the stored status is observed as
`'done'` when the gap strictly exceeds the remaining time, but at the exact
boundary `gap == remaining` the status still reads `'active'`, because
`_internal_update` compares the elapsed seconds with a strict `>`. -/
theorem timer_expiry_observations (t : Timer) (c now : Int)
    (hs : t.status = "active") (hc : t.update_time = some c)
    (h : t.remain ≤ now - c) :
    (timeRemainingRead t now).1 = 0 ∧
    (runningRead t now).1 = false ∧
    (doneRead t now).1 = true ∧
    (t.remain < now - c → statusRead (timeRemainingRead t now).2 = "done") ∧
    (t.remain = now - c → statusRead (timeRemainingRead t now).2 = "active") := by
  have hssc : secondsSinceCheck t now = now - c := secondsSinceCheck_some t now c hc
  rcases lt_or_eq_of_le h with hlt | heq
  · have hiu : internalUpdate t now = timerEnd t :=
      internalUpdate_active_expired t now hs (by rw [hssc]; exact hlt)
    refine ⟨?_, ?_, ?_, ?_, ?_⟩ <;>
      simp [timeRemainingRead, runningRead, doneRead, statusRead, hiu] <;> omega
  · have hle : secondsSinceCheck t now ≤ t.remain := by rw [hssc]; omega
    have hiu := internalUpdate_active_live t now hs hle
    have hzero : t.remain - secondsSinceCheck t now = 0 := by rw [hssc]; omega
    refine ⟨?_, ?_, ?_, ?_, ?_⟩ <;>
      simp [timeRemainingRead, runningRead, doneRead, statusRead, hiu, hzero, hs] <;> omega

/-- C1 witness: an active timer with `remaining = 5`, checkpoint `0`,
observed at `now = 9` (strict expiry). -/
theorem timer_expiry_observations_witness :
    (timeRemainingRead ⟨100, "beep", 1, none, "active", 5, some 0⟩ 9).1 = 0 ∧
    (runningRead ⟨100, "beep", 1, none, "active", 5, some 0⟩ 9).1 = false ∧
    (doneRead ⟨100, "beep", 1, none, "active", 5, some 0⟩ 9).1 = true ∧
    (((⟨100, "beep", 1, none, "active", 5, some 0⟩ : Timer).remain < 9 - 0 →
      statusRead (timeRemainingRead ⟨100, "beep", 1, none, "active", 5, some 0⟩ 9).2 =
        "done")) ∧
    (((⟨100, "beep", 1, none, "active", 5, some 0⟩ : Timer).remain = 9 - 0 →
      statusRead (timeRemainingRead ⟨100, "beep", 1, none, "active", 5, some 0⟩ 9).2 =
        "active")) :=
  timer_expiry_observations ⟨100, "beep", 1, none, "active", 5, some 0⟩ 0 9 rfl rfl
    (by decide)

/-- C1 counterexample to the claim as stated: at the boundary
`gap == remaining` (remaining `5`, checkpoint `0`, read at `now = 5`) the
read returns `time_remaining == 0` but the observed status is `'active'`,
not `'done'`. -/
theorem timer_expiry_boundary_counterexample :
    (timeRemainingRead ⟨100, "beep", 1, none, "active", 5, some 0⟩ 5).1 = 0 ∧
    statusRead (timeRemainingRead ⟨100, "beep", 1, none, "active", 5, some 0⟩ 5).2 =
      "active" := by
  decide

/-- C2: what the code does at the failing input.  Assigning
`time_remaining = 5` to a done timer leaves it done with `remaining == 0`:
the setter's `self.status = 'paused'` is defeated by the status setter's
absorbing-done rule, so the timer is never re-armed, contradicting both the
spec and the evident intent of the `'paused'` transition in the source. -/
theorem timer_rearm_done_stays_done :
    (setTimeRemaining ⟨100, "beep", 1, none, "done", 0, none⟩ 5 50).status = "done" ∧
    (setTimeRemaining ⟨100, "beep", 1, none, "done", 0, none⟩ 5 50).remain = 0 ∧
    (timerUpdate ⟨100, "beep", 1, none, "done", 0, none⟩ (some 5) none 50).1 =
      ⟨100, "beep", 1, none, "done", 0, none⟩ := by
  decide

/-- C5: assigning a nonpositive remaining value never raises and immediately
completes the timer: the resulting state is exactly `end()`'s, a later
`done` read returns `true` and a later `time_remaining` read returns `0`;
`update(time_remaining=v)` behaves identically and reports no error. -/
theorem timer_set_nonpositive_clamps (t : Timer) (v now now2 : Int) (hv : v ≤ 0) :
    setTimeRemaining t v now = timerEnd t ∧
    timerUpdate t (some v) none now = (timerEnd t, none) ∧
    (doneRead (setTimeRemaining t v now) now2).1 = true ∧
    (timeRemainingRead (setTimeRemaining t v now) now2).1 = 0 := by
  have h1 : setTimeRemaining t v now = timerEnd t := by
    simp [setTimeRemaining, hv]
  refine ⟨h1, ?_, ?_, ?_⟩
  · simp [timerUpdate, h1]
  · simp [doneRead, h1, internalUpdate_timerEnd]
  · simp [timeRemainingRead, h1, internalUpdate_timerEnd]

/-- C5 witness: `update(time_remaining=-5)` on an active timer. -/
theorem timer_set_nonpositive_clamps_witness :
    setTimeRemaining ⟨100, "beep", 1, none, "active", 60, some 0⟩ (-5) 40 =
      timerEnd ⟨100, "beep", 1, none, "active", 60, some 0⟩ ∧
    timerUpdate ⟨100, "beep", 1, none, "active", 60, some 0⟩ (some (-5)) none 40 =
      (timerEnd ⟨100, "beep", 1, none, "active", 60, some 0⟩, none) ∧
    (doneRead (setTimeRemaining ⟨100, "beep", 1, none, "active", 60, some 0⟩ (-5) 40)
      41).1 = true ∧
    (timeRemainingRead
      (setTimeRemaining ⟨100, "beep", 1, none, "active", 60, some 0⟩ (-5) 40) 41).1 = 0 :=
  timer_set_nonpositive_clamps ⟨100, "beep", 1, none, "active", 60, some 0⟩ (-5) 40 41
    (by decide)

/-- C3 (amended): every public operation and the recompute preserve the
one-directional invariant `status == 'done' → remaining == 0 ∧ checkpoint is
None`, and `'done'` is absorbing with no further countdown: starting from a
done timer, the recompute and `time_remaining`/`status` writes produce
exactly the `end()` state, `start()` is a no-op and `pause()` keeps the
`end()` state.  The claim's reverse implications (`remaining == 0 →
done`, `checkpoint is None → done`) are refuted separately. -/
theorem timer_done_invariant_and_absorbing (t : Timer) (now v : Int) (s : String)
    (r0 : Option Int) (s0 : Option String) (ht : TimerInv t) :
    TimerInv (internalUpdate t now) ∧
    TimerInv (timeRemainingRead t now).2 ∧
    TimerInv (setTimeRemaining t v now) ∧
    TimerInv (setStatus t s now).1 ∧
    TimerInv (runningRead t now).2 ∧
    TimerInv (doneRead t now).2 ∧
    TimerInv (timerStart t now) ∧
    TimerInv (timerEnd t) ∧
    TimerInv (timerPause t now) ∧
    TimerInv (timerUpdate t r0 s0 now).1 ∧
    (t.status = "done" →
      internalUpdate t now = timerEnd t ∧
      setTimeRemaining t v now = timerEnd t ∧
      (setStatus t s now).1.status = "done" ∧
      timerStart t now = t ∧
      timerPause t now = timerEnd t) := by
  refine ⟨timerInv_internalUpdate t now, timerInv_internalUpdate t now,
    timerInv_setTimeRemaining t v now, timerInv_setStatus_fst t s now ht,
    timerInv_internalUpdate t now, timerInv_internalUpdate t now,
    timerInv_timerStart t now ht, timerInv_timerEnd t, timerInv_timerPause t now,
    timerInv_timerUpdate_fst t r0 s0 now ht,
    fun hd => ⟨internalUpdate_done t now hd, setTimeRemaining_of_done t v now hd, ?_,
      timerStart_of_not_paused t now (by simp [hd]), timerPause_of_done t now hd⟩⟩
  unfold setStatus
  split_ifs
  · rw [setStatusCore_of_done t s now hd]
    rfl
  · exact hd

/-- C3 witness: the fully done state `⟨100, "beep", 1, none, "done", 0, none⟩`
satisfies the invariant and is absorbing under every operation. -/
theorem timer_done_invariant_and_absorbing_witness :
    TimerInv (internalUpdate ⟨100, "beep", 1, none, "done", 0, none⟩ 5) ∧
    timerPause ⟨100, "beep", 1, none, "done", 0, none⟩ 5 =
      timerEnd ⟨100, "beep", 1, none, "done", 0, none⟩ :=
  ⟨(timer_done_invariant_and_absorbing ⟨100, "beep", 1, none, "done", 0, none⟩ 5 7
      "active" none none (by decide)).1,
   ((timer_done_invariant_and_absorbing ⟨100, "beep", 1, none, "done", 0, none⟩ 5 7
      "active" none none (by decide)).2.2.2.2.2.2.2.2.2.2 rfl).2.2.2.2⟩

/-- C3 counterexample to the biconditional chain as claimed: pausing a fresh
active timer yields `checkpoint is None` with status `'paused'` and
`remaining == 60`, refuting `checkpoint is None → status == 'done'`; and the
recompute at the exact expiry boundary yields `remaining == 0` with status
still `'active'`, refuting `remaining == 0 → status == 'done'`. -/
theorem timer_done_iff_counterexample :
    ((timerPause ⟨100, "beep", 1, none, "active", 100, some 0⟩ 40).update_time = none ∧
     (timerPause ⟨100, "beep", 1, none, "active", 100, some 0⟩ 40).status = "paused" ∧
     (timerPause ⟨100, "beep", 1, none, "active", 100, some 0⟩ 40).remain = 60) ∧
    ((internalUpdate ⟨100, "beep", 1, none, "active", 7, some 0⟩ 7).remain = 0 ∧
     (internalUpdate ⟨100, "beep", 1, none, "active", 7, some 0⟩ 7).status = "active") := by
  decide

/-- C4: the status setter raises exactly on values outside
`{'active', 'paused', 'done'}`, and when it raises it does so before any
mutation: the returned state is the unchanged input state. -/
theorem timer_status_setter_validation (t : Timer) (s : String) (now : Int) :
    ((setStatus t s now).2.isSome ↔ ¬ validStatus s) ∧
    (¬ validStatus s →
      setStatus t s now = (t, some ("Invalid status " ++ s))) := by
  unfold setStatus
  split_ifs with h <;> simp [h]

/-- C4 witness: the invalid status `'bogus'` raises and leaves the state
untouched. -/
theorem timer_status_setter_validation_witness :
    setStatus ⟨100, "beep", 1, none, "active", 50, some 0⟩ "bogus" 10 =
      (⟨100, "beep", 1, none, "active", 50, some 0⟩, some "Invalid status bogus") :=
  (timer_status_setter_validation ⟨100, "beep", 1, none, "active", 50, some 0⟩
    "bogus" 10).2 (by decide)

/-- C7: `'done'` is absorbing under status writes: from a done timer, any
status assignment observes status `'done'` afterwards; a valid assignment
(in particular `update(status='active')`) produces exactly the `end()`
state; and `end()` is idempotent with `status == 'done'`, `remaining == 0`. -/
theorem timer_done_absorbing_status_writes (t : Timer) (s : String) (now : Int)
    (h : t.status = "done") :
    (setStatus t s now).1.status = "done" ∧
    (validStatus s → (setStatus t s now).1 = timerEnd t) ∧
    timerUpdate t none (some "active") now = (timerEnd t, none) ∧
    timerEnd (timerEnd t) = timerEnd t ∧
    (timerEnd t).status = "done" ∧ (timerEnd t).remain = 0 := by
  have hcore : ∀ s', setStatusCore t s' now = timerEnd t :=
    fun s' => setStatusCore_of_done t s' now h
  refine ⟨?_, ?_, ?_, timerEnd_timerEnd t, rfl, rfl⟩
  · unfold setStatus
    split_ifs
    · rw [hcore s]
      rfl
    · exact h
  · intro hv
    simp [setStatus, hv, hcore s]
  · simp [timerUpdate, setStatus, validStatus, hcore "active"]

/-- C7 witness: `update(status='active')` on a done timer. -/
theorem timer_done_absorbing_status_writes_witness :
    (setStatus ⟨100, "beep", 1, none, "done", 0, none⟩ "active" 10).1.status = "done" ∧
    (validStatus "active" →
      (setStatus ⟨100, "beep", 1, none, "done", 0, none⟩ "active" 10).1 =
        timerEnd ⟨100, "beep", 1, none, "done", 0, none⟩) ∧
    timerUpdate ⟨100, "beep", 1, none, "done", 0, none⟩ none (some "active") 10 =
      (timerEnd ⟨100, "beep", 1, none, "done", 0, none⟩, none) ∧
    timerEnd (timerEnd ⟨100, "beep", 1, none, "done", 0, none⟩) =
      timerEnd ⟨100, "beep", 1, none, "done", 0, none⟩ ∧
    (timerEnd ⟨100, "beep", 1, none, "done", 0, none⟩).status = "done" ∧
    (timerEnd ⟨100, "beep", 1, none, "done", 0, none⟩).remain = 0 :=
  timer_done_absorbing_status_writes ⟨100, "beep", 1, none, "done", 0, none⟩
    "active" 10 rfl

/-- C8: an active timer with checkpoint `c` observed after a gap
`0 ≤ now - c < remaining` reads `time_remaining == remaining - gap` and its
status is still `'active'`. -/
theorem timer_active_partial_elapse (t : Timer) (c now : Int)
    (hs : t.status = "active") (hc : t.update_time = some c)
    (h0 : 0 ≤ now - c) (h : now - c < t.remain) :
    (timeRemainingRead t now).1 = t.remain - (now - c) ∧
    statusRead (timeRemainingRead t now).2 = "active" := by
  have hssc : secondsSinceCheck t now = now - c := secondsSinceCheck_some t now c hc
  have hiu := internalUpdate_active_live t now hs (by rw [hssc]; omega)
  constructor
  · simp [timeRemainingRead, hiu, hssc]
  · simp [timeRemainingRead, statusRead, hiu, hs]

/-- C8 witness: an active timer with `remaining = 100`, checkpoint `0`, read
at `now = 40`. -/
theorem timer_active_partial_elapse_witness :
    (timeRemainingRead ⟨100, "beep", 1, none, "active", 100, some 0⟩ 40).1 =
      (⟨100, "beep", 1, none, "active", 100, some 0⟩ : Timer).remain - (40 - 0) ∧
    statusRead (timeRemainingRead ⟨100, "beep", 1, none, "active", 100, some 0⟩ 40).2 =
      "active" :=
  timer_active_partial_elapse ⟨100, "beep", 1, none, "active", 100, some 0⟩ 0 40
    rfl rfl (by decide) (by decide)

/-- C6: for a non-done timer (the data model keeps `remaining` non-negative),
`pause()` followed by `start()` with no wall-clock time elapsing between or
around the calls leaves `time_remaining` at its value from just before the
pause. -/
theorem timer_pause_start_roundtrip (t : Timer) (now : Int)
    (h : t.status ≠ "done") (hr : 0 ≤ t.remain) :
    (timeRemainingRead (timerStart (timerPause t now) now) now).1 =
      (timeRemainingRead t now).1 := by
  obtain ⟨a, b, c, d, st, r, u⟩ := t
  simp only at h hr
  by_cases h1 : st = "paused"
  · subst h1
    have hP : timerPause ⟨a, b, c, d, "paused", r, u⟩ now =
        ⟨a, b, c, d, "paused", r, none⟩ := by
      simp [timerPause, setStatusCore, internalUpdate, secondsSinceCheck]
    have hS : timerStart ⟨a, b, c, d, "paused", r, none⟩ now =
        ⟨a, b, c, d, "active", r, some now⟩ := by
      simp [timerStart, setStatusCore, internalUpdate, secondsSinceCheck]
    rw [hP, hS, timeRemainingRead_eq, timeRemainingRead_eq]
    simp only [internalUpdate, secondsSinceCheck]
    split_ifs <;> simp_all <;> omega
  · by_cases h3 : st = "active"
    · subst h3
      cases u with
      | none =>
        have h2 : ¬ (r < (0 : Int)) := by omega
        have hP : timerPause ⟨a, b, c, d, "active", r, none⟩ now =
            ⟨a, b, c, d, "paused", r, none⟩ := by
          simp [timerPause, setStatusCore, internalUpdate, secondsSinceCheck, h2]
        have hS : timerStart ⟨a, b, c, d, "paused", r, none⟩ now =
            ⟨a, b, c, d, "active", r, some now⟩ := by
          simp [timerStart, setStatusCore, internalUpdate, secondsSinceCheck]
        rw [hP, hS, timeRemainingRead_eq, timeRemainingRead_eq]
        simp only [internalUpdate, secondsSinceCheck]
        split_ifs <;> simp_all <;> omega
      | some cp =>
        by_cases hexp : r < now - cp
        · have hP : timerPause ⟨a, b, c, d, "active", r, some cp⟩ now =
              ⟨a, b, c, d, "done", 0, none⟩ := by
            simp [timerPause, setStatusCore, internalUpdate, secondsSinceCheck, hexp]
          have hS : timerStart ⟨a, b, c, d, "done", 0, none⟩ now =
              ⟨a, b, c, d, "done", 0, none⟩ := by
            simp [timerStart]
          rw [hP, hS, timeRemainingRead_eq, timeRemainingRead_eq]
          simp only [internalUpdate, secondsSinceCheck]
          split_ifs <;> simp_all <;> omega
        · have h4 : ¬ (r - (now - cp) < 0) := by omega
          have hP : timerPause ⟨a, b, c, d, "active", r, some cp⟩ now =
              ⟨a, b, c, d, "paused", r - (now - cp), none⟩ := by
            simp [timerPause, setStatusCore, internalUpdate, secondsSinceCheck,
              hexp, h4]
          have hS : timerStart ⟨a, b, c, d, "paused", r - (now - cp), none⟩ now =
              ⟨a, b, c, d, "active", r - (now - cp), some now⟩ := by
            simp [timerStart, setStatusCore, internalUpdate, secondsSinceCheck]
          rw [hP, hS, timeRemainingRead_eq, timeRemainingRead_eq]
          simp only [internalUpdate, secondsSinceCheck]
          split_ifs <;> simp_all <;> omega
    · have hP : timerPause ⟨a, b, c, d, st, r, u⟩ now =
          ⟨a, b, c, d, "paused", r, none⟩ := by
        simp [timerPause, setStatusCore, internalUpdate, secondsSinceCheck, h, h1, h3]
      have hS : timerStart ⟨a, b, c, d, "paused", r, none⟩ now =
          ⟨a, b, c, d, "active", r, some now⟩ := by
        simp [timerStart, setStatusCore, internalUpdate, secondsSinceCheck]
      rw [hP, hS, timeRemainingRead_eq, timeRemainingRead_eq]
      simp only [internalUpdate, secondsSinceCheck]
      split_ifs <;> simp_all [h, h1, h3] <;> omega

/-- C6 witness: an active timer with `remaining = 100`, checkpoint `0`,
paused and restarted at `now = 40`. -/
theorem timer_pause_start_roundtrip_witness :
    (timeRemainingRead
      (timerStart (timerPause ⟨100, "beep", 1, none, "active", 100, some 0⟩ 40) 40)
      40).1 =
      (timeRemainingRead ⟨100, "beep", 1, none, "active", 100, some 0⟩ 40).1 :=
  timer_pause_start_roundtrip ⟨100, "beep", 1, none, "active", 100, some 0⟩ 40
    (by decide) (by decide)

/-- C9: what the code does.  The attrs default
`update_time: Optional[int] = int(time.time())` is evaluated once, when the
class body runs at module import, so a timer constructed later starts with
the module-load timestamp as its checkpoint, not its creation time: with the
module loaded at `0`, a `Timer(timer_duration=100, action='beep')` created
at wall-clock `50` already reads `time_remaining == 50` at its creation
instant (it reads `100` only if created exactly at module load), refuting
`checkpoint == creation time` and `time_remaining == d` at zero elapsed
time. -/
theorem timer_fresh_checkpoint_is_class_load_time :
    (mkTimer 100 "beep" 1 none 0).update_time = some 0 ∧
    (timeRemainingRead (mkTimer 100 "beep" 1 none 0) 50).1 = 50 ∧
    (timeRemainingRead (mkTimer 100 "beep" 1 none 0) 0).1 = 100 ∧
    (runningRead (mkTimer 100 "beep" 1 none 0) 0).1 = true ∧
    (mkTimer 100 "beep" 1 none 0).status = "active" := by
  decide

/-- C10: every public Timer operation (`time_remaining` read/write, `status`
read/write, `running`, `paused`, `done`, `start`, `end`, `pause`, `update`)
leaves `timer_duration`, `action` and `id` unchanged, and after construction
no operation reads `timer_duration`: every operation commutes with an
arbitrary substitution of that field and every observed value is invariant
under it. -/
theorem timer_frame_and_duration_unread (t : Timer) (now v x : Int) (s : String)
    (r0 : Option Int) (s0 : Option String) :
    sameFrame t (internalUpdate t now) ∧
    sameFrame t (timeRemainingRead t now).2 ∧
    sameFrame t (setTimeRemaining t v now) ∧
    sameFrame t (setStatus t s now).1 ∧
    sameFrame t (runningRead t now).2 ∧
    sameFrame t (doneRead t now).2 ∧
    sameFrame t (timerStart t now) ∧
    sameFrame t (timerEnd t) ∧
    sameFrame t (timerPause t now) ∧
    sameFrame t (timerUpdate t r0 s0 now).1 ∧
    internalUpdate (withDuration t x) now = withDuration (internalUpdate t now) x ∧
    (timeRemainingRead (withDuration t x) now).1 = (timeRemainingRead t now).1 ∧
    setTimeRemaining (withDuration t x) v now =
      withDuration (setTimeRemaining t v now) x ∧
    setStatus (withDuration t x) s now =
      (withDuration (setStatus t s now).1 x, (setStatus t s now).2) ∧
    (runningRead (withDuration t x) now).1 = (runningRead t now).1 ∧
    pausedRead (withDuration t x) = pausedRead t ∧
    (doneRead (withDuration t x) now).1 = (doneRead t now).1 ∧
    statusRead (withDuration t x) = statusRead t ∧
    timerStart (withDuration t x) now = withDuration (timerStart t now) x ∧
    timerEnd (withDuration t x) = withDuration (timerEnd t) x ∧
    timerPause (withDuration t x) now = withDuration (timerPause t now) x ∧
    timerUpdate (withDuration t x) r0 s0 now =
      (withDuration (timerUpdate t r0 s0 now).1 x, (timerUpdate t r0 s0 now).2) := by
  refine ⟨sameFrame_internalUpdate t now, sameFrame_internalUpdate t now,
    sameFrame_setTimeRemaining t v now, sameFrame_setStatus_fst t s now,
    sameFrame_internalUpdate t now, sameFrame_internalUpdate t now,
    sameFrame_timerStart t now, sameFrame_timerEnd t, sameFrame_timerPause t now,
    sameFrame_timerUpdate_fst t r0 s0 now,
    internalUpdate_withDuration t x now, ?_,
    setTimeRemaining_withDuration t x v now, setStatus_withDuration t x s now,
    ?_, rfl, ?_, rfl, timerStart_withDuration t x now, rfl,
    timerPause_withDuration t x now, timerUpdate_withDuration t x r0 s0 now⟩
  · simp only [timeRemainingRead_eq, internalUpdate_withDuration]
    rfl
  · simp only [runningRead]
    rw [internalUpdate_withDuration]
    rfl
  · simp only [doneRead]
    rw [internalUpdate_withDuration]
    rfl

end PyVeSync
